import Mathlib

/-!
Verification development for the traccuracy matching and division-classification
core: a shallow embedding of `traccuracy/track_errors/_divisions.py` and
`traccuracy/matchers/_iou.py`, together with theorems about the embedded
operations.

Node identifiers are natural numbers.  The networkx graph behind a
`TrackingGraph` is embedded as an explicit node list plus a directed edge
list; node attributes (frame index, segmentation label) are functions on
node identifiers.  Mutable per-node annotations (flags, the
`min_buffer_correct` attribute, the per-graph division-annotation flag) are
carried in an explicit state (`GraphAnn`, `MatchedState`) threaded through
the operations.  Python's `np.nan` sentinel for `min_buffer_correct` is
embedded as `Option Nat` with `none` playing the role of NaN-or-absent
(the code only ever distinguishes the two via `... is not np.nan`).
`ValueError` raises become `Except.error`.  Python `Counter` equality is
multiset equality of the compared lists.
-/

namespace Traccuracy

/-- Division-event flags written onto nodes by the classifier,
from `traccuracy._tracking_graph.NodeFlag`. -/
inductive NodeFlag where
  | TP_DIV
  | FP_DIV
  | FN_DIV
  | WC_DIV
deriving DecidableEq, Repr

/-- A segmentation volume: an array shape together with the per-frame
labeled frames, each frame flattened to a list of integer labels. -/
structure Segm where
  shape : List Nat
  frames : List (List Nat)
deriving DecidableEq, Repr

/-- Static part of a tracking graph: nodes, directed lineage edges, and the
per-node `frame` and `label` attributes, plus the optional segmentation.
The graph container itself is not part of the two embedded source files;
its fields follow the node/attribute access contract of the spec. -/
structure TrackingGraph where
  nodes : List Nat
  edges : List (Nat × Nat)
  frame : Nat → Nat
  label : Nat → Nat := fun _ => 0
  segmentation : Option Segm := none
  startFrame : Nat := 0
  endFrame : Nat := 0

/-- Modelled from the spec: successor enumeration of the graph collaborator
(direct children of a node, in edge order). -/
def successors (g : TrackingGraph) (n : Nat) : List Nat :=
  (g.edges.filter (fun e => decide (e.1 = n))).map Prod.snd

/-- Modelled from the spec: predecessor enumeration of the graph collaborator
(direct parents of a node, in edge order). -/
def predecessors (g : TrackingGraph) (n : Nat) : List Nat :=
  (g.edges.filter (fun e => decide (e.2 = n))).map Prod.fst

/-- Modelled from the spec: `TrackingGraph.get_divisions`, the nodes with
out-degree at least 2. -/
def getDivisions (g : TrackingGraph) : List Nat :=
  g.nodes.filter (fun n => decide (2 ≤ (successors g n).length))

/-- The matched dataset: ground-truth graph, predicted graph, and the
node-pair mapping (list of (gt node, pred node) pairs). -/
structure Matched where
  gtGraph : TrackingGraph
  predGraph : TrackingGraph
  mapping : List (Nat × Nat)

/-- Modelled from the spec: `Matched.get_gt_pred_match`, the single-match
forward lookup returning the first pair in mapping order, or none. -/
def getGtPredMatch (m : Matched) (gtNode : Nat) : Option Nat :=
  (m.mapping.find? (fun q => decide (q.1 = gtNode))).map Prod.snd

/-- Modelled from the spec: `Matched.get_pred_gt_match`, the single-match
backward lookup returning the first pair in mapping order, or none. -/
def getPredGtMatch (m : Matched) (predNode : Nat) : Option Nat :=
  (m.mapping.find? (fun q => decide (q.2 = predNode))).map Prod.fst

/-- Mutable annotation state of one graph: the per-node flag sets, the
per-node `min_buffer_correct` attribute (`none` embeds NaN-or-absent), and
the per-graph `division_annotations` boolean. -/
structure GraphAnn where
  flags : List (Nat × NodeFlag)
  minBufferCorrect : Nat → Option Nat
  divAnnsDone : Bool

/-- Fresh annotation state: no flags, no `min_buffer_correct` values,
division annotations not done. -/
def GraphAnn.init : GraphAnn :=
  { flags := [], minBufferCorrect := fun _ => none, divAnnsDone := false }

/-- Modelled from the spec: `TrackingGraph.set_flag_on_node`, adding a flag
to a node's flag set. -/
def setFlag (a : GraphAnn) (n : Nat) (f : NodeFlag) : GraphAnn :=
  { a with flags := (n, f) :: a.flags }

/-- A node carries a flag in the annotation state. -/
def hasFlag (a : GraphAnn) (n : Nat) (f : NodeFlag) : Prop :=
  (n, f) ∈ a.flags

instance (a : GraphAnn) (n : Nat) (f : NodeFlag) : Decidable (hasFlag a n f) :=
  inferInstanceAs (Decidable ((n, f) ∈ a.flags))

/-- Reading the `min_buffer_correct` attribute of a node
(`none` is the NaN/absent sentinel). -/
def minBuffer (a : GraphAnn) (n : Nat) : Option Nat :=
  a.minBufferCorrect n

/-- Writing the `min_buffer_correct` attribute of a node
(writing `none` is the NaN marking of `evaluate_division_events`). -/
def setMinBuffer (a : GraphAnn) (n : Nat) (v : Option Nat) : GraphAnn :=
  { a with minBufferCorrect := fun k => if k = n then v else a.minBufferCorrect k }

/-- Modelled from the spec: `TrackingGraph.get_nodes_with_flag`, the graph
nodes carrying a given flag. -/
def getNodesWithFlag (g : TrackingGraph) (a : GraphAnn) (f : NodeFlag) : List Nat :=
  g.nodes.filter (fun n => decide (hasFlag a n f))

/-- Annotation state for a matched dataset: one `GraphAnn` per graph. -/
structure MatchedState where
  gtAnn : GraphAnn
  predAnn : GraphAnn

/-- Fresh state for both graphs. -/
def MatchedState.init : MatchedState :=
  { gtAnn := GraphAnn.init, predAnn := GraphAnn.init }

/-- One iteration of the gt-division loop of `_classify_divisions`
(lines 46-76): classify one ground-truth division node, threading the
annotation state and the working predicted-division list `div_pred`. -/
def classifyOne (m : Matched) (st : MatchedState × List Nat) (gtNode : Nat) :
    MatchedState × List Nat :=
  let s := st.1
  let divPred := st.2
  match getGtPredMatch m gtNode with
  | none => ({ s with gtAnn := setFlag s.gtAnn gtNode NodeFlag.FN_DIV }, divPred)
  | some predNode =>
    if predNode ∉ divPred then
      ({ s with gtAnn := setFlag s.gtAnn gtNode NodeFlag.FN_DIV }, divPred)
    else
      let succGt := (successors m.gtGraph gtNode).map some
      let succPred := (successors m.predGraph predNode).map (fun x => getPredGtMatch m x)
      if Multiset.ofList succGt = Multiset.ofList succPred then
        ({ gtAnn := setFlag s.gtAnn gtNode NodeFlag.TP_DIV,
           predAnn := setFlag s.predAnn predNode NodeFlag.TP_DIV }, divPred.erase predNode)
      else
        ({ gtAnn := setFlag s.gtAnn gtNode NodeFlag.WC_DIV,
           predAnn := setFlag s.predAnn predNode NodeFlag.WC_DIV }, divPred.erase predNode)

/-- The gt-division loop of `_classify_divisions` over the list of
ground-truth division nodes. -/
def classifyLoop (m : Matched) (st : MatchedState × List Nat) :
    List Nat → MatchedState × List Nat
  | [] => st
  | g :: gs => classifyLoop m (classifyOne m st g) gs

/-- `_classify_divisions` (lines 21-84): skip when both graphs already carry
the division-annotation flag; otherwise classify every gt division, flag the
remaining working predicted divisions FP_DIV, and set the annotation flag on
both graphs. -/
def classifyDivisions (m : Matched) (s : MatchedState) : MatchedState :=
  if s.gtAnn.divAnnsDone && s.predAnn.divAnnsDone then s
  else
    let res := classifyLoop m (s, getDivisions m.predGraph) (getDivisions m.gtGraph)
    let predAnn2 := res.2.foldl (fun a n => setFlag a n NodeFlag.FP_DIV) res.1.predAnn
    { gtAnn := { res.1.gtAnn with divAnnsDone := true },
      predAnn := { predAnn2 with divAnnsDone := true } }

/-- `_get_pred_by_t` (lines 87-111): walk back through predecessors for
`delta` steps; `Except.ok none` when the chain ends, an error when a node
with more than one predecessor (a merge) is found. -/
def getPredByT (g : TrackingGraph) : Nat → Nat → Except String (Option Nat)
  | node, 0 => Except.ok (some node)
  | node, d + 1 =>
    match predecessors g node with
    | [] => Except.ok none
    | [p] => getPredByT g p d
    | _ => Except.error "Cannot operate on graphs with merges"

/-- `_get_succ_by_t` (lines A114-134): walk forward through successors for
`delta` steps; `none` when the chain ends or another division (two or more
successors) is found. -/
def getSuccByT (g : TrackingGraph) : Nat → Nat → Option Nat
  | node, 0 => some node
  | node, d + 1 =>
    match successors g node with
    | [s] => getSuccByT g s d
    | _ => none

/-- The body of the `(fp, fn)` pair loop of `_correct_shifted_divisions`
(lines 165-226) up to the final `correct` boolean: `ok false` embeds the
`continue` skips, `ok true` the `correct = True` outcome, and the error is
the merge error raised by the predecessor walk. -/
def pairCorrectable (m : Matched) (nFrames : Nat) (s : MatchedState)
    (fpNode fnNode : Nat) : Except String Bool :=
  let tFp := m.predGraph.frame fpNode
  let tFn := m.gtGraph.frame fnNode
  if (minBuffer s.predAnn fpNode).isSome ∨ (minBuffer s.gtAnn fnNode).isSome then
    Except.ok false
  else if (if tFn ≤ tFp then tFp - tFn else tFn - tFp) > nFrames ∨ tFp = tFn then
    Except.ok false
  else if tFp < tFn then
    match getPredByT m.gtGraph fnNode (tFn - tFp) with
    | Except.error e => Except.error e
    | Except.ok none => Except.ok false
    | Except.ok (some fnPred) =>
      if (fnPred, fpNode) ∉ m.mapping then Except.ok false
      else
        let fpSucc := (successors m.predGraph fpNode).map
          (fun x => getSuccByT m.predGraph x (tFn - tFp))
        let fnSuccMapped := (successors m.gtGraph fnNode).map
          (fun x => getGtPredMatch m x)
        if Multiset.ofList fpSucc ≠ Multiset.ofList fnSuccMapped then Except.ok false
        else Except.ok true
  else
    match getPredByT m.predGraph fpNode (tFp - tFn) with
    | Except.error e => Except.error e
    | Except.ok none => Except.ok false
    | Except.ok (some fpPred) =>
      if (fnNode, fpPred) ∉ m.mapping then Except.ok false
      else
        let fnSucc := (successors m.gtGraph fnNode).map
          (fun x => getSuccByT m.gtGraph x (tFp - tFn))
        let fpSuccMapped := (successors m.predGraph fpNode).map
          (fun x => getPredGtMatch m x)
        if Multiset.ofList fpSuccMapped ≠ Multiset.ofList fnSucc then Except.ok false
        else Except.ok true

/-- One `(fp, fn)` pair of `_correct_shifted_divisions`: when the pair is
correctable at this buffer, record `n_frames` as `min_buffer_correct` on
both nodes (lines 228-231). -/
def correctPair (m : Matched) (nFrames : Nat) (s : MatchedState)
    (fpNode fnNode : Nat) : Except String MatchedState :=
  match pairCorrectable m nFrames s fpNode fnNode with
  | Except.error e => Except.error e
  | Except.ok false => Except.ok s
  | Except.ok true =>
    Except.ok { gtAnn := setMinBuffer s.gtAnn fnNode (some nFrames),
                predAnn := setMinBuffer s.predAnn fpNode (some nFrames) }

/-- The pair loop of `_correct_shifted_divisions` over the cross product,
threading the state; a raise from the walk aborts the loop. -/
def correctPairs (m : Matched) (nFrames : Nat) (s : MatchedState) :
    List (Nat × Nat) → Except String MatchedState
  | [] => Except.ok s
  | q :: qs =>
    match correctPair m nFrames s q.1 q.2 with
    | Except.error e => Except.error e
    | Except.ok s' => correctPairs m nFrames s' qs

/-- `_correct_shifted_divisions` (lines 137-231): gather the FP_DIV and
FN_DIV nodes and process every pair of the cross product in order. -/
def correctShiftedDivisions (m : Matched) (nFrames : Nat) (s : MatchedState) :
    Except String MatchedState :=
  let fpDivs := getNodesWithFlag m.predGraph s.predAnn NodeFlag.FP_DIV
  let fnDivs := getNodesWithFlag m.gtGraph s.gtAnn NodeFlag.FN_DIV
  correctPairs m nFrames s (fpDivs.flatMap (fun fp => fnDivs.map (fun fn => (fp, fn))))

/-- Write the NaN sentinel onto `min_buffer_correct` of each listed node
(lines 258-263 of `evaluate_division_events`). -/
def setMinBufferNaN (a : GraphAnn) (ns : List Nat) : GraphAnn :=
  ns.foldl (fun acc n => setMinBuffer acc n none) a

/-- The buffer loop of `evaluate_division_events`: run the corrector for
each buffer value in the given order. -/
def evalLoop (m : Matched) (s : MatchedState) : List Nat → Except String MatchedState
  | [] => Except.ok s
  | d :: ds =>
    match correctShiftedDivisions m d s with
    | Except.error e => Except.error e
    | Except.ok s' => evalLoop m s' ds

/-- `evaluate_division_events` (lines 234-269): baseline classification,
NaN-mark `min_buffer_correct` on every FN_DIV and FP_DIV node, then run the
corrector for buffers `1 .. max_frame_buffer` in increasing order. -/
def evaluateDivisionEvents (m : Matched) (maxFrameBuffer : Nat) (s : MatchedState) :
    Except String MatchedState :=
  let s1 := classifyDivisions m s
  let gtA := setMinBufferNaN s1.gtAnn (getNodesWithFlag m.gtGraph s1.gtAnn NodeFlag.FN_DIV)
  let prA := setMinBufferNaN s1.predAnn (getNodesWithFlag m.predGraph s1.predAnn NodeFlag.FP_DIV)
  evalLoop m { gtAnn := gtA, predAnn := prA } ((List.range maxFrameBuffer).map (fun d => d + 1))

/-- The largest label occurring in a flattened labeled frame
(`np.max` of the array, with 0 for an empty frame). -/
def maxLabel (l : List Nat) : Nat := l.foldl max 0

/-- Pixel count of the intersection of the regions of labels `a` (ground
truth) and `b` (prediction): `np.logical_and(gt == a, res == b).sum()`. -/
def interCount (gt res : List Nat) (a b : Nat) : Nat :=
  ((gt.zip res).filter (fun q => decide (q.1 = a ∧ q.2 = b))).length

/-- Pixel count of the union of the regions of labels `a` and `b`:
`np.logical_or(gt == a, res == b).sum()`. -/
def unionCount (gt res : List Nat) (a b : Nat) : Nat :=
  ((gt.zip res).filter (fun q => decide (q.1 = a ∨ q.2 = b))).length

/-- Intersection over union of a label pair, as an exact rational. -/
def iouVal (gt res : List Nat) (a b : Nat) : ℚ :=
  (interCount gt res a b : ℚ) / (unionCount gt res a b : ℚ)

/-- One cell of the `iou` matrix of `_match_nodes`: the IoU for candidate
pairs proposed by the overlap finder, and the initial 0 elsewhere. -/
def iouEntry (gt res : List Nat) (cands : List (Nat × Nat)) (a b : Nat) : ℚ :=
  if (a, b) ∈ cands then iouVal gt res a b else 0

/-- `_match_nodes` (lines 12-49 of `_iou.py`): the label pairs of the
`(max gt + 1) x (max res + 1)` IoU matrix whose entry is at least the
threshold, in the row-major order of `np.where`.  The candidate pairs are a
parameter because `get_labels_with_overlap` is an external collaborator. -/
def matchNodes (gt res : List Nat) (cands : List (Nat × Nat)) (threshold : ℚ) :
    List (Nat × Nat) :=
  ((List.range (maxLabel gt + 1)).flatMap (fun a =>
    (List.range (maxLabel res + 1)).map (fun b => (a, b)))).filter
    (fun q => decide (threshold ≤ iouEntry gt res cands q.1 q.2))

/-- A value passed to `match_iou`: either an actual tracking graph or a
value of some other type (for the `isinstance` guard). -/
inductive IouInput where
  | tg : TrackingGraph → IouInput
  | notTracking : IouInput

/-- Modelled from the spec: looking up, within the frame's node set, the
node whose label attribute equals the given id (first such node;
an empty lookup is the Python `[0]` IndexError). -/
def lookupNodeByLabel (g : TrackingGraph) (t lab : Nat) : Except String Nat :=
  match (g.nodes.filter (fun n => decide (g.frame n = t ∧ g.label n = lab))).head? with
  | some n => Except.ok n
  | none => Except.error "IndexError"

/-- Translate the label pairs matched in one frame into node-id pairs
(lines 90-102 of `_iou.py`). -/
def pairsToNodes (g p : TrackingGraph) (t : Nat) :
    List (Nat × Nat) → Except String (List (Nat × Nat))
  | [] => Except.ok []
  | q :: qs =>
    match lookupNodeByLabel g t q.1, lookupNodeByLabel p t q.2 with
    | Except.ok gn, Except.ok pn =>
      match pairsToNodes g p t qs with
      | Except.ok rest => Except.ok ((gn, pn) :: rest)
      | Except.error e => Except.error e
    | Except.error e, _ => Except.error e
    | _, Except.error e => Except.error e

/-- The frame loop of `match_iou` (lines 82-102): for each enumerated frame
index `i` at time `start_frame + i`, match the two labeled frames and
translate the matches to node pairs. -/
def matchIouFrames (ov : List Nat → List Nat → List (Nat × Nat))
    (g p : TrackingGraph) (sg sp : Segm) (threshold : ℚ) :
    List Nat → List (Nat × Nat) → Except String (List (Nat × Nat))
  | [], acc => Except.ok acc
  | i :: is, acc =>
    let t := g.startFrame + i
    let fg := sg.frames.getD i []
    let fp := sp.frames.getD i []
    match pairsToNodes g p t (matchNodes fg fp (ov fg fp) threshold) with
    | Except.error e => Except.error e
    | Except.ok newPairs => matchIouFrames ov g p sg sp threshold is (acc ++ newPairs)

/-- `match_iou` (lines 52-103): the `isinstance` guard, the access to the
segmentations (an absent segmentation is the Python AttributeError), the
shape guard, then the frame loop. -/
def matchIou (ov : List Nat → List Nat → List (Nat × Nat))
    (gt pred : IouInput) (threshold : ℚ) : Except String (List (Nat × Nat)) :=
  match gt, pred with
  | IouInput.tg g, IouInput.tg p =>
    match g.segmentation, p.segmentation with
    | some sg, some sp =>
      if sg.shape ≠ sp.shape then
        Except.error "Segmentation shapes must match between gt and pred"
      else
        matchIouFrames ov g p sg sp threshold
          (List.range (g.endFrame - g.startFrame)) []
    | _, _ => Except.error "AttributeError"
  | _, _ =>
    Except.error "Input data must be a TrackingData object with a graph and segmentations"

/-- `IOUMatcher._compute_mapping` (lines 118-139): a missing segmentation on
either graph raises before `match_iou` is called. -/
def IOUMatcherComputeMapping (ov : List Nat → List Nat → List (Nat × Nat))
    (iouThreshold : ℚ) (gt pred : TrackingGraph) : Except String (List (Nat × Nat)) :=
  if gt.segmentation.isNone || pred.segmentation.isNone then
    Except.error "Segmentation data must be provided for both gt and pred data"
  else matchIou ov (IouInput.tg gt) (IouInput.tg pred) iouThreshold

/-! Concrete instances used by the closed theorems and witnesses. -/

/-- Ground-truth graph of the shifted-division scenario: division `1` at
frame 5 with daughters `2, 3` at frame 6, whose lineages continue to `4, 5`
at frame 7. -/
def gtC3 : TrackingGraph :=
  { nodes := [1, 2, 3, 4, 5]
    edges := [(1, 2), (1, 3), (2, 4), (3, 5)]
    frame := fun n => if n = 1 then 5 else if n = 2 ∨ n = 3 then 6 else 7 }

/-- Predicted graph of the shifted-division scenario: chain `11 → 12` with a
division at `12` (frame 6) and daughters `13, 14` at frame 7. -/
def predC3 : TrackingGraph :=
  { nodes := [11, 12, 13, 14]
    edges := [(11, 12), (12, 13), (12, 14)]
    frame := fun n => if n = 11 then 5 else if n = 12 then 6 else 7 }

/-- The shifted-division scenario: `(1, 12)` are not matched directly, the
single predecessor `11` of `12` at frame 5 is matched to `1`, and the
daughter lineages correspond under the mapping at the predicted daughters'
frame. -/
def mC3 : Matched :=
  { gtGraph := gtC3, predGraph := predC3, mapping := [(1, 11), (4, 13), (5, 14)] }

/-- A ground-truth graph with a merge: node `3` has the two direct
predecessors `1` and `2`. -/
def gtC4 : TrackingGraph :=
  { nodes := [1, 2, 3], edges := [(1, 3), (2, 3)], frame := fun n => if n = 3 then 6 else 5 }

/-- A predicted graph with a false-positive division candidate one frame
before the merge node of `gtC4`. -/
def predC4 : TrackingGraph :=
  { nodes := [11, 13], edges := [(11, 13)], frame := fun n => if n = 13 then 5 else 4 }

/-- Matched dataset whose ground-truth graph contains a merge on the
predecessor walk of the corrector. -/
def mC4 : Matched := { gtGraph := gtC4, predGraph := predC4, mapping := [] }

/-- State in which `3` is an FN_DIV node and `13` an FP_DIV node, so that
the corrector walks back from `3` into the merge. -/
def sC4 : MatchedState :=
  { gtAnn := { flags := [(3, NodeFlag.FN_DIV)], minBufferCorrect := fun _ => none,
               divAnnsDone := true }
    predAnn := { flags := [(13, NodeFlag.FP_DIV)], minBufferCorrect := fun _ => none,
                 divAnnsDone := true } }

/-- A matched dataset with one division on each side, matched to each other
with corresponding daughters. -/
def mTP : Matched :=
  { gtGraph := { nodes := [1, 2, 3], edges := [(1, 2), (1, 3)],
                 frame := fun n => if n = 1 then 0 else 1 }
    predGraph := { nodes := [21, 22, 23], edges := [(21, 22), (21, 23)],
                   frame := fun n => if n = 21 then 0 else 1 }
    mapping := [(1, 21), (2, 22), (3, 23)] }

/-- A matched dataset with a non-injective mapping on the daughters: gt
division 0 with daughters 1, 2 is matched to predicted division 10 with
daughters 11, 12, where both gt daughters map forward to 11 while the
predicted daughters map back to 2 and 1 respectively. -/
def mWC : Matched :=
  { gtGraph := { nodes := [0, 1, 2], edges := [(0, 1), (0, 2)],
                 frame := fun n => if n = 0 then 0 else 1 }
    predGraph := { nodes := [10, 11, 12], edges := [(10, 11), (10, 12)],
                   frame := fun n => if n = 10 then 0 else 1 }
    mapping := [(0, 10), (2, 11), (1, 11), (1, 12)] }

/-- A matched dataset with empty graphs. -/
def mEmpty : Matched :=
  { gtGraph := { nodes := [], edges := [], frame := fun _ => 0 }
    predGraph := { nodes := [], edges := [], frame := fun _ => 0 }
    mapping := [] }

/-- A tracking graph with a 1-d segmentation of shape `[2]`. -/
def gSegA : TrackingGraph :=
  { nodes := [], edges := [], frame := fun _ => 0,
    segmentation := some { shape := [2], frames := [[0, 0]] } }

/-- A tracking graph with a 1-d segmentation of shape `[3]`. -/
def gSegB : TrackingGraph :=
  { nodes := [], edges := [], frame := fun _ => 0,
    segmentation := some { shape := [3], frames := [[0, 0, 0]] } }

/-- A state carrying a recorded `min_buffer_correct` value on node 0 of both
graphs. -/
def sSet : MatchedState :=
  { gtAnn := { flags := [], minBufferCorrect := fun k => if k = 0 then some 1 else none,
               divAnnsDone := false }
    predAnn := { flags := [], minBufferCorrect := fun k => if k = 0 then some 1 else none,
                 divAnnsDone := false } }

/-! Helper lemmas about the corrector state. -/

/-- Reading after writing `min_buffer_correct`. -/
theorem minBuffer_setMinBuffer (a : GraphAnn) (n : Nat) (v : Option Nat) (k : Nat) :
    minBuffer (setMinBuffer a n v) k = if k = n then v else minBuffer a k := rfl

/-- A pair in which either node already carries a recorded
`min_buffer_correct` value is not correctable (the first `continue`). -/
theorem pairCorrectable_skip (m : Matched) (n : Nat) (s : MatchedState) (fp fn : Nat)
    (h : (minBuffer s.predAnn fp).isSome ∨ (minBuffer s.gtAnn fn).isSome) :
    pairCorrectable m n s fp fn = Except.ok false := by
  unfold pairCorrectable
  simp only [if_pos h]

/-- A pair in which either node already carries a recorded value is skipped
entirely: the state is returned unchanged. -/
theorem correctPair_skip (m : Matched) (n : Nat) (s : MatchedState) (fp fn : Nat)
    (h : (minBuffer s.predAnn fp).isSome ∨ (minBuffer s.gtAnn fn).isSome) :
    correctPair m n s fp fn = Except.ok s := by
  unfold correctPair
  rw [pairCorrectable_skip m n s fp fn h]

/-- A correctable pair had no recorded value on either node. -/
theorem pairCorrectable_true_unset (m : Matched) (n : Nat) (s : MatchedState)
    (fp fn : Nat) (h : pairCorrectable m n s fp fn = Except.ok true) :
    minBuffer s.predAnn fp = none ∧ minBuffer s.gtAnn fn = none := by
  by_cases hs : (minBuffer s.predAnn fp).isSome ∨ (minBuffer s.gtAnn fn).isSome
  · rw [pairCorrectable_skip m n s fp fn hs] at h
    simp at h
  · rw [not_or] at hs
    exact ⟨Option.not_isSome_iff_eq_none.mp hs.1, Option.not_isSome_iff_eq_none.mp hs.2⟩

/-- Effect of one pair on `min_buffer_correct`: recorded values are
preserved, and any new value is exactly the current buffer `n`. -/
theorem correctPair_minBuffer (m : Matched) (n : Nat) (s s' : MatchedState)
    (fp fn : Nat) (h : correctPair m n s fp fn = Except.ok s') (x : Nat) (v : Nat) :
    (minBuffer s.gtAnn x = some v → minBuffer s'.gtAnn x = some v) ∧
    (minBuffer s'.gtAnn x = some v → minBuffer s.gtAnn x = some v ∨ v = n) ∧
    (minBuffer s.predAnn x = some v → minBuffer s'.predAnn x = some v) ∧
    (minBuffer s'.predAnn x = some v → minBuffer s.predAnn x = some v ∨ v = n) := by
  unfold correctPair at h
  cases hpc : pairCorrectable m n s fp fn with
  | error e => rw [hpc] at h; cases h
  | ok b =>
    rw [hpc] at h
    cases b with
    | false =>
      injection h with h
      subst h
      exact ⟨fun hx => hx, fun hx => Or.inl hx, fun hx => hx, fun hx => Or.inl hx⟩
    | true =>
      injection h with h
      subst h
      obtain ⟨hfp, hfn⟩ := pairCorrectable_true_unset m n s fp fn hpc
      refine ⟨?_, ?_, ?_, ?_⟩
      · intro hx
        rw [minBuffer_setMinBuffer]
        by_cases hxfn : x = fn
        · subst hxfn; rw [hfn] at hx; cases hx
        · rw [if_neg hxfn]; exact hx
      · intro hx
        rw [minBuffer_setMinBuffer] at hx
        by_cases hxfn : x = fn
        · rw [if_pos hxfn] at hx
          exact Or.inr (Option.some.inj hx).symm
        · rw [if_neg hxfn] at hx
          exact Or.inl hx
      · intro hx
        rw [minBuffer_setMinBuffer]
        by_cases hxfp : x = fp
        · subst hxfp; rw [hfp] at hx; cases hx
        · rw [if_neg hxfp]; exact hx
      · intro hx
        rw [minBuffer_setMinBuffer] at hx
        by_cases hxfp : x = fp
        · rw [if_pos hxfp] at hx
          exact Or.inr (Option.some.inj hx).symm
        · rw [if_neg hxfp] at hx
          exact Or.inl hx

/-- Effect of the whole pair loop on `min_buffer_correct`. -/
theorem correctPairs_minBuffer (m : Matched) (n : Nat) (ps : List (Nat × Nat)) :
    ∀ (s s' : MatchedState), correctPairs m n s ps = Except.ok s' → ∀ x v,
    (minBuffer s.gtAnn x = some v → minBuffer s'.gtAnn x = some v) ∧
    (minBuffer s'.gtAnn x = some v → minBuffer s.gtAnn x = some v ∨ v = n) ∧
    (minBuffer s.predAnn x = some v → minBuffer s'.predAnn x = some v) ∧
    (minBuffer s'.predAnn x = some v → minBuffer s.predAnn x = some v ∨ v = n) := by
  induction ps with
  | nil =>
    intro s s' h x v
    unfold correctPairs at h
    injection h with h
    subst h
    exact ⟨fun hx => hx, fun hx => Or.inl hx, fun hx => hx, fun hx => Or.inl hx⟩
  | cons q qs ih =>
    intro s s' h x v
    unfold correctPairs at h
    cases hcp : correctPair m n s q.1 q.2 with
    | error e => rw [hcp] at h; cases h
    | ok s1 =>
      rw [hcp] at h
      obtain ⟨p1, q1, p2, q2⟩ := correctPair_minBuffer m n s s1 q.1 q.2 hcp x v
      obtain ⟨p1', q1', p2', q2'⟩ := ih s1 s' h x v
      refine ⟨fun hx => p1' (p1 hx), fun hx => ?_, fun hx => p2' (p2 hx), fun hx => ?_⟩
      · rcases q1' hx with h1 | h1
        · exact q1 h1
        · exact Or.inr h1
      · rcases q2' hx with h1 | h1
        · exact q2 h1
        · exact Or.inr h1

/-- Effect of one corrector pass on `min_buffer_correct`: recorded values
are preserved exactly, new values equal the pass's buffer. -/
theorem correctShifted_minBuffer (m : Matched) (n : Nat) (s s' : MatchedState)
    (h : correctShiftedDivisions m n s = Except.ok s') : ∀ x v,
    (minBuffer s.gtAnn x = some v → minBuffer s'.gtAnn x = some v) ∧
    (minBuffer s'.gtAnn x = some v → minBuffer s.gtAnn x = some v ∨ v = n) ∧
    (minBuffer s.predAnn x = some v → minBuffer s'.predAnn x = some v) ∧
    (minBuffer s'.predAnn x = some v → minBuffer s.predAnn x = some v ∨ v = n) := by
  unfold correctShiftedDivisions at h
  exact correctPairs_minBuffer m n _ s s' h

/-- The buffer loop of the orchestrator preserves recorded
`min_buffer_correct` values across all remaining passes. -/
theorem evalLoop_preserve (m : Matched) (ds : List Nat) :
    ∀ (s s' : MatchedState), evalLoop m s ds = Except.ok s' →
    ∀ x v, (minBuffer s.gtAnn x = some v → minBuffer s'.gtAnn x = some v) ∧
           (minBuffer s.predAnn x = some v → minBuffer s'.predAnn x = some v) := by
  induction ds with
  | nil =>
    intro s s' h x v
    unfold evalLoop at h
    injection h with h
    subst h
    exact ⟨id, id⟩
  | cons d ds' ih =>
    intro s s' h x v
    unfold evalLoop at h
    cases hc : correctShiftedDivisions m d s with
    | error e => rw [hc] at h; cases h
    | ok s1 =>
      rw [hc] at h
      have h1 := correctShifted_minBuffer m d s s1 hc x v
      have h2 := ih s1 s' h x v
      exact ⟨fun hx => h2.1 (h1.1 hx), fun hx => h2.2 (h1.2.2.1 hx)⟩

/-- Claim C1: once the shifted-division corrector has recorded a
`min_buffer_correct` value on a node during the pass with buffer `n1`, a
later pass with larger buffer `n2` skips every pair in which either node
already carries a recorded value (returning the state unchanged), so it
never overwrites the value; any value newly recorded by the later pass is
exactly `n2`, hence with buffers tried in increasing order the recorded
value is the smallest buffer at which the corrector records the division. -/
theorem C1_monotonic_minimality (m : Matched) (n1 n2 : Nat) (s1 s2 s3 : MatchedState)
    (_hlt : n1 < n2)
    (_h1 : correctShiftedDivisions m n1 s1 = Except.ok s2)
    (h2 : correctShiftedDivisions m n2 s2 = Except.ok s3) :
    (∀ (t : MatchedState) (fp fn : Nat),
       (minBuffer t.predAnn fp).isSome ∨ (minBuffer t.gtAnn fn).isSome →
       correctPair m n2 t fp fn = Except.ok t) ∧
    (∀ x v, minBuffer s2.gtAnn x = some v → minBuffer s3.gtAnn x = some v) ∧
    (∀ x v, minBuffer s2.predAnn x = some v → minBuffer s3.predAnn x = some v) ∧
    (∀ x v, minBuffer s3.gtAnn x = some v → minBuffer s2.gtAnn x = some v ∨ v = n2) ∧
    (∀ x v, minBuffer s3.predAnn x = some v → minBuffer s2.predAnn x = some v ∨ v = n2) ∧
    (∀ (ds : List Nat) (u u' : MatchedState), evalLoop m u ds = Except.ok u' →
      ∀ x v, (minBuffer u.gtAnn x = some v → minBuffer u'.gtAnn x = some v) ∧
             (minBuffer u.predAnn x = some v → minBuffer u'.predAnn x = some v)) := by
  refine ⟨fun t fp fn h => correctPair_skip m n2 t fp fn h, ?_, ?_, ?_, ?_,
    fun ds u u' h => evalLoop_preserve m ds u u' h⟩
  · exact fun x v hx => (correctShifted_minBuffer m n2 s2 s3 h2 x v).1 hx
  · exact fun x v hx => (correctShifted_minBuffer m n2 s2 s3 h2 x v).2.2.1 hx
  · exact fun x v hx => (correctShifted_minBuffer m n2 s2 s3 h2 x v).2.1 hx
  · exact fun x v hx => (correctShifted_minBuffer m n2 s2 s3 h2 x v).2.2.2 hx

/-- Witness for C1 at a concrete input: two passes with buffers 1 and 2 on
the empty matched dataset, then the skip conjunct applied to a state whose
node 0 already carries a recorded value. -/
theorem C1_monotonic_minimality_witness :
    correctPair mEmpty 2 sSet 0 0 = Except.ok sSet :=
  (C1_monotonic_minimality mEmpty 1 2 MatchedState.init MatchedState.init
      MatchedState.init (by decide) rfl rfl).1 sSet 0 0 (Or.inl (by decide))

/-- Claim C10: within a single corrector call at fixed buffer `n`, a pair in
which either node already carries a recorded `min_buffer_correct` value is
skipped entirely (the state is returned unchanged), so once a reconciled
pair is recorded every subsequent pair containing either node is a no-op:
recorded values survive the call unchanged and every newly recorded value is
exactly `n`, so no node's value is written twice with different effect. -/
theorem C10_single_attribution_per_call (m : Matched) (n : Nat) (s s' : MatchedState)
    (h : correctShiftedDivisions m n s = Except.ok s') :
    (∀ (t : MatchedState) (fp fn : Nat), (minBuffer t.predAnn fp).isSome →
       correctPair m n t fp fn = Except.ok t) ∧
    (∀ (t : MatchedState) (fp fn : Nat), (minBuffer t.gtAnn fn).isSome →
       correctPair m n t fp fn = Except.ok t) ∧
    (∀ x v, minBuffer s.gtAnn x = some v → minBuffer s'.gtAnn x = some v) ∧
    (∀ x v, minBuffer s'.gtAnn x = some v → minBuffer s.gtAnn x = some v ∨ v = n) ∧
    (∀ x v, minBuffer s.predAnn x = some v → minBuffer s'.predAnn x = some v) ∧
    (∀ x v, minBuffer s'.predAnn x = some v → minBuffer s.predAnn x = some v ∨ v = n) := by
  refine ⟨fun t fp fn hx => correctPair_skip m n t fp fn (Or.inl hx),
    fun t fp fn hx => correctPair_skip m n t fp fn (Or.inr hx), ?_, ?_, ?_, ?_⟩
  · exact fun x v hx => (correctShifted_minBuffer m n s s' h x v).1 hx
  · exact fun x v hx => (correctShifted_minBuffer m n s s' h x v).2.1 hx
  · exact fun x v hx => (correctShifted_minBuffer m n s s' h x v).2.2.1 hx
  · exact fun x v hx => (correctShifted_minBuffer m n s s' h x v).2.2.2 hx

/-- Witness for C10 at a concrete input: one pass with buffer 1 on the
empty matched dataset, then the gt-side skip conjunct applied to a state
whose node 0 already carries a recorded value. -/
theorem C10_single_attribution_per_call_witness :
    correctPair mEmpty 1 sSet 5 0 = Except.ok sSet :=
  (C10_single_attribution_per_call mEmpty 1 MatchedState.init MatchedState.init
      rfl).2.1 sSet 5 0 (by decide)

/-! Helper lemmas about the classifier. -/

/-- Membership in a flag set after adding a flag. -/
theorem hasFlag_setFlag (a : GraphAnn) (n : Nat) (f : NodeFlag) (x : Nat) (g : NodeFlag) :
    hasFlag (setFlag a n f) x g ↔ (x = n ∧ g = f) ∨ hasFlag a x g := by
  unfold hasFlag setFlag
  simp [Prod.ext_iff]

/-- Setting the division-annotation flag does not change node flags. -/
theorem hasFlag_setDone (a : GraphAnn) (x : Nat) (f : NodeFlag) :
    hasFlag { a with divAnnsDone := true } x f ↔ hasFlag a x f := Iff.rfl

/-- Step equation: unmatched gt division. -/
theorem classifyOne_none (m : Matched) (st : MatchedState × List Nat) (g : Nat)
    (hm : getGtPredMatch m g = none) :
    classifyOne m st g = ({ st.1 with gtAnn := setFlag st.1.gtAnn g NodeFlag.FN_DIV }, st.2) := by
  simp only [classifyOne, hm]

/-- Step equation: matched to a node outside the working predicted-division
list. -/
theorem classifyOne_notDiv (m : Matched) (st : MatchedState × List Nat) (g p : Nat)
    (hm : getGtPredMatch m g = some p) (hp : p ∉ st.2) :
    classifyOne m st g = ({ st.1 with gtAnn := setFlag st.1.gtAnn g NodeFlag.FN_DIV }, st.2) := by
  simp only [classifyOne, hm, if_pos hp]

/-- Step equation: matched predicted division with equal daughter
multisets. -/
theorem classifyOne_tp (m : Matched) (st : MatchedState × List Nat) (g p : Nat)
    (hm : getGtPredMatch m g = some p) (hp : p ∈ st.2)
    (heq : Multiset.ofList ((successors m.gtGraph g).map some) =
      Multiset.ofList ((successors m.predGraph p).map (fun x => getPredGtMatch m x))) :
    classifyOne m st g =
      ({ gtAnn := setFlag st.1.gtAnn g NodeFlag.TP_DIV,
         predAnn := setFlag st.1.predAnn p NodeFlag.TP_DIV }, st.2.erase p) := by
  simp only [classifyOne, hm, if_neg (not_not_intro hp), if_pos heq]

/-- Step equation: matched predicted division with mismatched daughter
multisets. -/
theorem classifyOne_wc (m : Matched) (st : MatchedState × List Nat) (g p : Nat)
    (hm : getGtPredMatch m g = some p) (hp : p ∈ st.2)
    (hne : Multiset.ofList ((successors m.gtGraph g).map some) ≠
      Multiset.ofList ((successors m.predGraph p).map (fun x => getPredGtMatch m x))) :
    classifyOne m st g =
      ({ gtAnn := setFlag st.1.gtAnn g NodeFlag.WC_DIV,
         predAnn := setFlag st.1.predAnn p NodeFlag.WC_DIV }, st.2.erase p) := by
  simp only [classifyOne, hm, if_neg (not_not_intro hp), if_neg hne]

/-- One classification step only adds flags on the gt side. -/
theorem classifyOne_gt_mono (m : Matched) (st : MatchedState × List Nat) (g : Nat)
    (x : Nat) (f : NodeFlag) (hx : hasFlag st.1.gtAnn x f) :
    hasFlag (classifyOne m st g).1.gtAnn x f := by
  cases hm : getGtPredMatch m g with
  | none =>
    rw [classifyOne_none m st g hm]
    exact (hasFlag_setFlag _ _ _ _ _).mpr (Or.inr hx)
  | some p =>
    by_cases hp : p ∈ st.2
    · by_cases heq : Multiset.ofList ((successors m.gtGraph g).map some) =
        Multiset.ofList ((successors m.predGraph p).map (fun x => getPredGtMatch m x))
      · rw [classifyOne_tp m st g p hm hp heq]
        exact (hasFlag_setFlag _ _ _ _ _).mpr (Or.inr hx)
      · rw [classifyOne_wc m st g p hm hp heq]
        exact (hasFlag_setFlag _ _ _ _ _).mpr (Or.inr hx)
    · rw [classifyOne_notDiv m st g p hm hp]
      exact (hasFlag_setFlag _ _ _ _ _).mpr (Or.inr hx)

/-- One classification step only adds flags on the pred side. -/
theorem classifyOne_pred_mono (m : Matched) (st : MatchedState × List Nat) (g : Nat)
    (x : Nat) (f : NodeFlag) (hx : hasFlag st.1.predAnn x f) :
    hasFlag (classifyOne m st g).1.predAnn x f := by
  cases hm : getGtPredMatch m g with
  | none =>
    rw [classifyOne_none m st g hm]
    exact hx
  | some p =>
    by_cases hp : p ∈ st.2
    · by_cases heq : Multiset.ofList ((successors m.gtGraph g).map some) =
        Multiset.ofList ((successors m.predGraph p).map (fun x => getPredGtMatch m x))
      · rw [classifyOne_tp m st g p hm hp heq]
        exact (hasFlag_setFlag _ _ _ _ _).mpr (Or.inr hx)
      · rw [classifyOne_wc m st g p hm hp heq]
        exact (hasFlag_setFlag _ _ _ _ _).mpr (Or.inr hx)
    · rw [classifyOne_notDiv m st g p hm hp]
      exact hx

/-- One classification step touches gt flags only at its own node. -/
theorem classifyOne_gt_other (m : Matched) (st : MatchedState × List Nat) (g : Nat)
    (x : Nat) (f : NodeFlag) (hxg : x ≠ g) :
    hasFlag (classifyOne m st g).1.gtAnn x f ↔ hasFlag st.1.gtAnn x f := by
  cases hm : getGtPredMatch m g with
  | none =>
    rw [classifyOne_none m st g hm]
    show hasFlag (setFlag st.1.gtAnn g NodeFlag.FN_DIV) x f ↔ hasFlag st.1.gtAnn x f
    rw [hasFlag_setFlag]
    simp [hxg]
  | some p =>
    by_cases hp : p ∈ st.2
    · by_cases heq : Multiset.ofList ((successors m.gtGraph g).map some) =
        Multiset.ofList ((successors m.predGraph p).map (fun x => getPredGtMatch m x))
      · rw [classifyOne_tp m st g p hm hp heq]
        show hasFlag (setFlag st.1.gtAnn g NodeFlag.TP_DIV) x f ↔ hasFlag st.1.gtAnn x f
        rw [hasFlag_setFlag]
        simp [hxg]
      · rw [classifyOne_wc m st g p hm hp heq]
        show hasFlag (setFlag st.1.gtAnn g NodeFlag.WC_DIV) x f ↔ hasFlag st.1.gtAnn x f
        rw [hasFlag_setFlag]
        simp [hxg]
    · rw [classifyOne_notDiv m st g p hm hp]
      show hasFlag (setFlag st.1.gtAnn g NodeFlag.FN_DIV) x f ↔ hasFlag st.1.gtAnn x f
      rw [hasFlag_setFlag]
      simp [hxg]

/-- The working predicted-division list only shrinks in one step. -/
theorem classifyOne_dp_subset (m : Matched) (st : MatchedState × List Nat) (g : Nat) :
    (classifyOne m st g).2 ⊆ st.2 := by
  cases hm : getGtPredMatch m g with
  | none =>
    rw [classifyOne_none m st g hm]
    exact fun _ hx => hx
  | some p =>
    by_cases hp : p ∈ st.2
    · by_cases heq : Multiset.ofList ((successors m.gtGraph g).map some) =
        Multiset.ofList ((successors m.predGraph p).map (fun x => getPredGtMatch m x))
      · rw [classifyOne_tp m st g p hm hp heq]
        exact List.erase_subset p st.2
      · rw [classifyOne_wc m st g p hm hp heq]
        exact List.erase_subset p st.2
    · rw [classifyOne_notDiv m st g p hm hp]
      exact fun _ hx => hx

/-- A predicted division not matched by the processed gt node stays in the
working list. -/
theorem classifyOne_dp_keep (m : Matched) (st : MatchedState × List Nat) (g p : Nat)
    (hp : p ∈ st.2) (hne : getGtPredMatch m g ≠ some p) :
    p ∈ (classifyOne m st g).2 := by
  cases hm : getGtPredMatch m g with
  | none =>
    rw [classifyOne_none m st g hm]
    exact hp
  | some q =>
    have hqp : p ≠ q := by
      intro hqp
      exact hne (hqp ▸ hm)
    by_cases hq : q ∈ st.2
    · by_cases heq : Multiset.ofList ((successors m.gtGraph g).map some) =
        Multiset.ofList ((successors m.predGraph q).map (fun x => getPredGtMatch m x))
      · rw [classifyOne_tp m st g q hm hq heq]
        exact (List.mem_erase_of_ne hqp).mpr hp
      · rw [classifyOne_wc m st g q hm hq heq]
        exact (List.mem_erase_of_ne hqp).mpr hp
    · rw [classifyOne_notDiv m st g q hm hq]
      exact hp

/-- Loop version of gt-flag monotonicity. -/
theorem classifyLoop_gt_mono (m : Matched) (L : List Nat) :
    ∀ (st : MatchedState × List Nat) (x : Nat) (f : NodeFlag),
    hasFlag st.1.gtAnn x f → hasFlag (classifyLoop m st L).1.gtAnn x f := by
  induction L with
  | nil => exact fun st x f hx => hx
  | cons a L' ih =>
    intro st x f hx
    exact ih (classifyOne m st a) x f (classifyOne_gt_mono m st a x f hx)

/-- Loop version of pred-flag monotonicity. -/
theorem classifyLoop_pred_mono (m : Matched) (L : List Nat) :
    ∀ (st : MatchedState × List Nat) (x : Nat) (f : NodeFlag),
    hasFlag st.1.predAnn x f → hasFlag (classifyLoop m st L).1.predAnn x f := by
  induction L with
  | nil => exact fun st x f hx => hx
  | cons a L' ih =>
    intro st x f hx
    exact ih (classifyOne m st a) x f (classifyOne_pred_mono m st a x f hx)

/-- The loop touches gt flags of a node not in the processed list only
trivially. -/
theorem classifyLoop_gt_other (m : Matched) (L : List Nat) :
    ∀ (st : MatchedState × List Nat) (x : Nat) (f : NodeFlag), x ∉ L →
    (hasFlag (classifyLoop m st L).1.gtAnn x f ↔ hasFlag st.1.gtAnn x f) := by
  induction L with
  | nil => exact fun st x f _ => Iff.rfl
  | cons a L' ih =>
    intro st x f hxL
    have hxa : x ≠ a := fun hxa => hxL (hxa ▸ List.mem_cons_self a L')
    have hxL' : x ∉ L' := fun hx => hxL (List.mem_cons_of_mem a hx)
    exact (ih (classifyOne m st a) x f hxL').trans (classifyOne_gt_other m st a x f hxa)

/-- Loop version of the working-list shrinking. -/
theorem classifyLoop_dp_subset (m : Matched) (L : List Nat) :
    ∀ (st : MatchedState × List Nat), (classifyLoop m st L).2 ⊆ st.2 := by
  induction L with
  | nil => exact fun st _ hx => hx
  | cons a L' ih =>
    intro st
    exact fun x hx => classifyOne_dp_subset m st a (ih (classifyOne m st a) hx)

/-- A predicted division matched by no processed gt node stays in the
working list through the loop. -/
theorem classifyLoop_dp_keep (m : Matched) (L : List Nat) :
    ∀ (st : MatchedState × List Nat) (p : Nat), p ∈ st.2 →
    (∀ g' ∈ L, getGtPredMatch m g' ≠ some p) → p ∈ (classifyLoop m st L).2 := by
  induction L with
  | nil => exact fun st p hp _ => hp
  | cons a L' ih =>
    intro st p hp hL
    exact ih (classifyOne m st a) p
      (classifyOne_dp_keep m st a p hp (hL a (List.mem_cons_self a L')))
      (fun g' hg' => hL g' (List.mem_cons_of_mem a hg'))

/-- Unfolding of the classifier when the annotation guard does not fire. -/
theorem classifyDivisions_not_done (m : Matched) (s : MatchedState)
    (h : s.gtAnn.divAnnsDone = false) :
    classifyDivisions m s =
    { gtAnn := { (classifyLoop m (s, getDivisions m.predGraph)
          (getDivisions m.gtGraph)).1.gtAnn with divAnnsDone := true },
      predAnn := { (classifyLoop m (s, getDivisions m.predGraph)
            (getDivisions m.gtGraph)).2.foldl
          (fun a n => setFlag a n NodeFlag.FP_DIV)
          (classifyLoop m (s, getDivisions m.predGraph)
            (getDivisions m.gtGraph)).1.predAnn with divAnnsDone := true } } := by
  unfold classifyDivisions
  rw [h]
  simp

/-- The FP fold preserves existing flags. -/
theorem fpFold_mono (rem : List Nat) :
    ∀ (a : GraphAnn) (x : Nat) (f : NodeFlag), hasFlag a x f →
    hasFlag (rem.foldl (fun acc n => setFlag acc n NodeFlag.FP_DIV) a) x f := by
  induction rem with
  | nil => exact fun a x f hx => hx
  | cons r rs ih =>
    intro a x f hx
    exact ih (setFlag a r NodeFlag.FP_DIV) x f ((hasFlag_setFlag _ _ _ _ _).mpr (Or.inr hx))

/-- The FP fold flags every listed node FP_DIV. -/
theorem fpFold_mem (rem : List Nat) :
    ∀ (a : GraphAnn) (x : Nat), x ∈ rem →
    hasFlag (rem.foldl (fun acc n => setFlag acc n NodeFlag.FP_DIV) a) x NodeFlag.FP_DIV := by
  induction rem with
  | nil => intro a x hx; cases hx
  | cons r rs ih =>
    intro a x hx
    rcases List.mem_cons.mp hx with hxr | hxs
    · exact fpFold_mono rs _ x NodeFlag.FP_DIV
        ((hasFlag_setFlag _ _ _ _ _).mpr (Or.inl ⟨hxr, rfl⟩))
    · exact ih _ x hxs

/-- A gt division that is unmatched, or matched to a node outside the
initial working predicted-division list, is flagged FN_DIV by the loop and
never TP_DIV or WC_DIV. -/
theorem classify_fn_aux (m : Matched) (g : Nat) (dp0 : List Nat)
    (hbr : getGtPredMatch m g = none ∨ ∃ p, getGtPredMatch m g = some p ∧ p ∉ dp0)
    (L : List Nat) :
    ∀ (st : MatchedState × List Nat), g ∈ L → L.Nodup → st.2 ⊆ dp0 →
    hasFlag (classifyLoop m st L).1.gtAnn g NodeFlag.FN_DIV ∧
    (¬ hasFlag st.1.gtAnn g NodeFlag.TP_DIV →
      ¬ hasFlag (classifyLoop m st L).1.gtAnn g NodeFlag.TP_DIV) ∧
    (¬ hasFlag st.1.gtAnn g NodeFlag.WC_DIV →
      ¬ hasFlag (classifyLoop m st L).1.gtAnn g NodeFlag.WC_DIV) := by
  induction L with
  | nil => intro st hg; cases hg
  | cons a L' ih =>
    intro st hg hnd hsub
    by_cases hag : a = g
    · subst hag
      have haL' : a ∉ L' := (List.nodup_cons.mp hnd).1
      have hstep : (classifyOne m st a).1.gtAnn = setFlag st.1.gtAnn a NodeFlag.FN_DIV := by
        rcases hbr with hnone | ⟨p, hp, hpd⟩
        · rw [classifyOne_none m st a hnone]
        · have hpst : p ∉ st.2 := fun hmem => hpd (hsub hmem)
          rw [classifyOne_notDiv m st a p hp hpst]
      have hother := fun f =>
        classifyLoop_gt_other m L' (classifyOne m st a) a f haL'
      refine ⟨?_, ?_, ?_⟩
      · rw [show classifyLoop m st (a :: L') = classifyLoop m (classifyOne m st a) L' from rfl]
        rw [hother NodeFlag.FN_DIV, hstep]
        exact (hasFlag_setFlag _ _ _ _ _).mpr (Or.inl ⟨rfl, rfl⟩)
      · intro hTP habs
        rw [show classifyLoop m st (a :: L') = classifyLoop m (classifyOne m st a) L' from rfl,
          hother NodeFlag.TP_DIV, hstep, hasFlag_setFlag] at habs
        rcases habs with ⟨_, hbad⟩ | hold
        · cases hbad
        · exact hTP hold
      · intro hWC habs
        rw [show classifyLoop m st (a :: L') = classifyLoop m (classifyOne m st a) L' from rfl,
          hother NodeFlag.WC_DIV, hstep, hasFlag_setFlag] at habs
        rcases habs with ⟨_, hbad⟩ | hold
        · cases hbad
        · exact hWC hold
    · have hga : g ≠ a := fun h => hag h.symm
      have hgL' : g ∈ L' := by
        rcases List.mem_cons.mp hg with h | h
        · exact absurd h.symm hag
        · exact h
      have hres := ih (classifyOne m st a) hgL' (List.nodup_cons.mp hnd).2
        (fun x hx => hsub (classifyOne_dp_subset m st a hx))
      refine ⟨hres.1, ?_, ?_⟩
      · intro hTP
        exact hres.2.1
          (fun habs => hTP ((classifyOne_gt_other m st a g NodeFlag.TP_DIV hga).mp habs))
      · intro hWC
        exact hres.2.2
          (fun habs => hWC ((classifyOne_gt_other m st a g NodeFlag.WC_DIV hga).mp habs))

/-- A gt division matched to a surviving working predicted division, with no
other processed gt node matching the same predicted node, gets TP_DIV on
both sides when the daughter multisets agree and WC_DIV on both sides
otherwise. -/
theorem classify_tp_wc_aux (m : Matched) (g p : Nat)
    (hm : getGtPredMatch m g = some p) (L : List Nat) :
    ∀ (st : MatchedState × List Nat), g ∈ L → L.Nodup → p ∈ st.2 →
    (∀ g' ∈ L, g' ≠ g → getGtPredMatch m g' ≠ some p) →
    (Multiset.ofList ((successors m.gtGraph g).map some) =
       Multiset.ofList ((successors m.predGraph p).map (fun x => getPredGtMatch m x)) →
     hasFlag (classifyLoop m st L).1.gtAnn g NodeFlag.TP_DIV ∧
     hasFlag (classifyLoop m st L).1.predAnn p NodeFlag.TP_DIV) ∧
    (Multiset.ofList ((successors m.gtGraph g).map some) ≠
       Multiset.ofList ((successors m.predGraph p).map (fun x => getPredGtMatch m x)) →
     hasFlag (classifyLoop m st L).1.gtAnn g NodeFlag.WC_DIV ∧
     hasFlag (classifyLoop m st L).1.predAnn p NodeFlag.WC_DIV) := by
  induction L with
  | nil => intro st hg; cases hg
  | cons a L' ih =>
    intro st hg hnd hp huniq
    by_cases hag : a = g
    · subst hag
      have haL' : a ∉ L' := (List.nodup_cons.mp hnd).1
      by_cases heq : Multiset.ofList ((successors m.gtGraph a).map some) =
          Multiset.ofList ((successors m.predGraph p).map (fun x => getPredGtMatch m x))
      · refine ⟨fun _ => ⟨?_, ?_⟩, fun hne => absurd heq hne⟩
        · rw [show classifyLoop m st (a :: L') = classifyLoop m (classifyOne m st a) L' from rfl,
            classifyLoop_gt_other m L' (classifyOne m st a) a NodeFlag.TP_DIV haL',
            classifyOne_tp m st a p hm hp heq]
          exact (hasFlag_setFlag _ _ _ _ _).mpr (Or.inl ⟨rfl, rfl⟩)
        · rw [show classifyLoop m st (a :: L') = classifyLoop m (classifyOne m st a) L' from rfl]
          refine classifyLoop_pred_mono m L' (classifyOne m st a) p NodeFlag.TP_DIV ?_
          rw [classifyOne_tp m st a p hm hp heq]
          exact (hasFlag_setFlag _ _ _ _ _).mpr (Or.inl ⟨rfl, rfl⟩)
      · refine ⟨fun habs => absurd habs heq, fun _ => ⟨?_, ?_⟩⟩
        · rw [show classifyLoop m st (a :: L') = classifyLoop m (classifyOne m st a) L' from rfl,
            classifyLoop_gt_other m L' (classifyOne m st a) a NodeFlag.WC_DIV haL',
            classifyOne_wc m st a p hm hp heq]
          exact (hasFlag_setFlag _ _ _ _ _).mpr (Or.inl ⟨rfl, rfl⟩)
        · rw [show classifyLoop m st (a :: L') = classifyLoop m (classifyOne m st a) L' from rfl]
          refine classifyLoop_pred_mono m L' (classifyOne m st a) p NodeFlag.WC_DIV ?_
          rw [classifyOne_wc m st a p hm hp heq]
          exact (hasFlag_setFlag _ _ _ _ _).mpr (Or.inl ⟨rfl, rfl⟩)
    · have hga : g ≠ a := fun h => hag h.symm
      have hgL' : g ∈ L' := by
        rcases List.mem_cons.mp hg with h | h
        · exact absurd h.symm hag
        · exact h
      have hkeep : p ∈ (classifyOne m st a).2 :=
        classifyOne_dp_keep m st a p hp
          (huniq a (List.mem_cons_self a L') (fun h => hag h))
      exact ih (classifyOne m st a) hgL' (List.nodup_cons.mp hnd).2 hkeep
        (fun g' hg' => huniq g' (List.mem_cons_of_mem a hg'))

/-- Claim C5: a ground-truth division with no matched predicted node, or
whose matched predicted node is not itself a predicted division, is flagged
FN_DIV by the classifier and never TP_DIV or WC_DIV. -/
theorem C5_unmatched_division_is_fn (m : Matched) (g : Nat)
    (hg : g ∈ getDivisions m.gtGraph)
    (hnd : (getDivisions m.gtGraph).Nodup)
    (hbr : getGtPredMatch m g = none ∨
      ∃ p, getGtPredMatch m g = some p ∧ p ∉ getDivisions m.predGraph) :
    hasFlag (classifyDivisions m MatchedState.init).gtAnn g NodeFlag.FN_DIV ∧
    ¬ hasFlag (classifyDivisions m MatchedState.init).gtAnn g NodeFlag.TP_DIV ∧
    ¬ hasFlag (classifyDivisions m MatchedState.init).gtAnn g NodeFlag.WC_DIV := by
  rw [classifyDivisions_not_done m MatchedState.init rfl]
  have haux := classify_fn_aux m g (getDivisions m.predGraph) hbr
    (getDivisions m.gtGraph) (MatchedState.init, getDivisions m.predGraph)
    hg hnd (fun _ hx => hx)
  exact ⟨haux.1, haux.2.1 (List.not_mem_nil _), haux.2.2 (List.not_mem_nil _)⟩

/-- Witness for C5 at a concrete input: in the shifted-division dataset the
gt division 1 is matched to the non-dividing predicted node 11. -/
theorem C5_unmatched_division_is_fn_witness :
    hasFlag (classifyDivisions mC3 MatchedState.init).gtAnn 1 NodeFlag.FN_DIV ∧
    ¬ hasFlag (classifyDivisions mC3 MatchedState.init).gtAnn 1 NodeFlag.TP_DIV ∧
    ¬ hasFlag (classifyDivisions mC3 MatchedState.init).gtAnn 1 NodeFlag.WC_DIV :=
  C5_unmatched_division_is_fn mC3 1 (by decide) (by decide)
    (Or.inr ⟨11, rfl, by decide⟩)

/-- Counterexample to claim C2 as stated: in `mWC` the gt division 0 is
matched to the predicted division 10 (all of the claim's hypotheses hold),
the claim's comparison — gt daughters each mapped forward to their
predicted counterpart against the multiset of predicted daughters — is a
discrepancy (both gt daughters map to 11, while 10's daughters are 11 and
12), so the claim requires WC_DIV on both; yet the classifier flags both
nodes TP_DIV and neither WC_DIV, because the code compares the predicted
daughters mapped back to gt against the raw gt daughters, and that
backward comparison is equal here. -/
theorem C2_spec_direction_counterexample :
    (getGtPredMatch mWC 0 = some 10 ∧
     decide (0 ∈ getDivisions mWC.gtGraph) = true ∧
     decide (10 ∈ getDivisions mWC.predGraph) = true) ∧
    decide (Multiset.ofList ((successors mWC.gtGraph 0).map (fun x => getGtPredMatch mWC x)) =
      Multiset.ofList ((successors mWC.predGraph 10).map some)) = false ∧
    decide (hasFlag (classifyDivisions mWC MatchedState.init).gtAnn 0 NodeFlag.TP_DIV) = true ∧
    decide (hasFlag (classifyDivisions mWC MatchedState.init).predAnn 10 NodeFlag.TP_DIV) = true ∧
    decide (hasFlag (classifyDivisions mWC MatchedState.init).gtAnn 0 NodeFlag.WC_DIV) = false ∧
    decide (hasFlag (classifyDivisions mWC MatchedState.init).predAnn 10 NodeFlag.WC_DIV) = false := by
  exact ⟨⟨rfl, rfl, rfl⟩, rfl, rfl, rfl, rfl, rfl⟩

/-- Claim C2 as amended: a ground-truth division matched to a predicted
division is classified by comparing the multiset of predicted daughters of
`p`, each mapped back through the index to its ground-truth counterpart
(unmatched daughters becoming the `none` sentinel), against the multiset of
ground-truth daughters of `g`: equality flags both nodes TP_DIV and any
discrepancy (including count-only mismatches) flags both WC_DIV. -/
theorem C2_matched_division_tp_or_wc (m : Matched) (g p : Nat)
    (hg : g ∈ getDivisions m.gtGraph)
    (hnd : (getDivisions m.gtGraph).Nodup)
    (hm : getGtPredMatch m g = some p)
    (hp : p ∈ getDivisions m.predGraph)
    (huniq : ∀ g' ∈ getDivisions m.gtGraph, g' ≠ g → getGtPredMatch m g' ≠ some p) :
    (Multiset.ofList ((successors m.gtGraph g).map some) =
       Multiset.ofList ((successors m.predGraph p).map (fun x => getPredGtMatch m x)) →
     hasFlag (classifyDivisions m MatchedState.init).gtAnn g NodeFlag.TP_DIV ∧
     hasFlag (classifyDivisions m MatchedState.init).predAnn p NodeFlag.TP_DIV) ∧
    (Multiset.ofList ((successors m.gtGraph g).map some) ≠
       Multiset.ofList ((successors m.predGraph p).map (fun x => getPredGtMatch m x)) →
     hasFlag (classifyDivisions m MatchedState.init).gtAnn g NodeFlag.WC_DIV ∧
     hasFlag (classifyDivisions m MatchedState.init).predAnn p NodeFlag.WC_DIV) := by
  rw [classifyDivisions_not_done m MatchedState.init rfl]
  have haux := classify_tp_wc_aux m g p hm (getDivisions m.gtGraph)
    (MatchedState.init, getDivisions m.predGraph) hg hnd hp huniq
  refine ⟨fun heq => ⟨(haux.1 heq).1, ?_⟩, fun hne => ⟨(haux.2 hne).1, ?_⟩⟩
  · exact fpFold_mono _ _ _ _ (haux.1 heq).2
  · exact fpFold_mono _ _ _ _ (haux.2 hne).2

/-- Witness for C2 at a concrete input: the matched division pair (1, 21)
with corresponding daughters is flagged TP_DIV on both sides. -/
theorem C2_matched_division_tp_or_wc_witness :
    hasFlag (classifyDivisions mTP MatchedState.init).gtAnn 1 NodeFlag.TP_DIV ∧
    hasFlag (classifyDivisions mTP MatchedState.init).predAnn 21 NodeFlag.TP_DIV :=
  (C2_matched_division_tp_or_wc mTP 1 21 (by decide) (by decide) rfl
    (by decide) (by decide)).1 rfl

/-- Claim C6: every predicted division node remaining in the working
predicted-division list after all ground-truth divisions are processed is
flagged FP_DIV. -/
theorem C6_remaining_divisions_fp (m : Matched) (s : MatchedState)
    (hga : s.gtAnn.divAnnsDone = false) (x : Nat)
    (hx : x ∈ (classifyLoop m (s, getDivisions m.predGraph) (getDivisions m.gtGraph)).2) :
    hasFlag (classifyDivisions m s).predAnn x NodeFlag.FP_DIV := by
  rw [classifyDivisions_not_done m s hga]
  exact fpFold_mem _ _ _ hx

/-- Witness for C6 at a concrete input: in the shifted-division dataset the
predicted division 12 is never consumed, so it ends FP_DIV. -/
theorem C6_remaining_divisions_fp_witness :
    hasFlag (classifyDivisions mC3 MatchedState.init).predAnn 12 NodeFlag.FP_DIV :=
  C6_remaining_divisions_fp mC3 MatchedState.init rfl 12 (by decide)

/-- Claim C7: the classifier is an idempotent no-op on already-annotated
pairs, always ends with the division-annotation flag set on both graphs,
and therefore running it twice leaves exactly the state of running it
once. -/
theorem C7_classifier_idempotent (m : Matched) (s : MatchedState) :
    (s.gtAnn.divAnnsDone = true ∧ s.predAnn.divAnnsDone = true →
      classifyDivisions m s = s) ∧
    ((classifyDivisions m s).gtAnn.divAnnsDone = true ∧
      (classifyDivisions m s).predAnn.divAnnsDone = true) ∧
    classifyDivisions m (classifyDivisions m s) = classifyDivisions m s := by
  have hskip : ∀ t : MatchedState, t.gtAnn.divAnnsDone = true →
      t.predAnn.divAnnsDone = true → classifyDivisions m t = t := by
    intro t h1 h2
    unfold classifyDivisions
    rw [h1, h2]
    simp
  have hdone : (classifyDivisions m s).gtAnn.divAnnsDone = true ∧
      (classifyDivisions m s).predAnn.divAnnsDone = true := by
    unfold classifyDivisions
    by_cases hc : (s.gtAnn.divAnnsDone && s.predAnn.divAnnsDone) = true
    · rw [if_pos hc]
      exact ⟨(Bool.and_eq_true _ _).mp hc |>.1, (Bool.and_eq_true _ _).mp hc |>.2⟩
    · rw [if_neg hc]
      exact ⟨rfl, rfl⟩
  exact ⟨fun h => hskip s h.1 h.2, hdone, hskip _ hdone.1 hdone.2⟩

/-- Witness for C7 at a concrete input: on a state already carrying the
annotation flags the classifier returns the state unchanged. -/
theorem C7_classifier_idempotent_witness :
    classifyDivisions mEmpty sC4 = sC4 :=
  (C7_classifier_idempotent mEmpty sC4).1 ⟨rfl, rfl⟩

/-- Claim C3: in the concrete shifted-division scenario (gt division 1 at
frame 5 with daughters 2, 3; predicted false-positive division 12 at frame 6
with daughters 13, 14; the pair not matched directly; 12's single
predecessor 11 at frame 5 matched to 1; daughter lineages corresponding
under the mapping), `evaluate_division_events` with `max_frame_buffer = 1`
records `min_buffer_correct = 1` on both 1 and 12 while leaving 1 flagged
FN_DIV and 12 flagged FP_DIV, with no TP_DIV or WC_DIV flag added. -/
theorem C3_shifted_division_scenario :
    (mC3.gtGraph.frame 1 = 5 ∧ mC3.predGraph.frame 12 = 6) ∧
    (successors mC3.gtGraph 1 = [2, 3] ∧ successors mC3.predGraph 12 = [13, 14]) ∧
    decide ((1, 12) ∈ mC3.mapping) = false ∧
    predecessors mC3.predGraph 12 = [11] ∧ (1, 11) ∈ mC3.mapping ∧
    (evaluateDivisionEvents mC3 1 MatchedState.init).map
      (fun s => (minBuffer s.gtAnn 1, minBuffer s.predAnn 12,
        decide (hasFlag s.gtAnn 1 NodeFlag.FN_DIV),
        decide (hasFlag s.predAnn 12 NodeFlag.FP_DIV),
        decide (hasFlag s.gtAnn 1 NodeFlag.TP_DIV),
        decide (hasFlag s.gtAnn 1 NodeFlag.WC_DIV),
        decide (hasFlag s.predAnn 12 NodeFlag.TP_DIV),
        decide (hasFlag s.predAnn 12 NodeFlag.WC_DIV))) =
      Except.ok (some 1, some 1, true, true, false, false, false, false) := by
  exact ⟨⟨rfl, rfl⟩, ⟨rfl, rfl⟩, by rfl, rfl, by decide, by rfl⟩

/-- Step equation of the walk at depth 0. -/
theorem getPredByT_zero (g : TrackingGraph) (node : Nat) :
    getPredByT g node 0 = Except.ok (some node) := rfl

/-- Step equation of the walk when the chain ends. -/
theorem getPredByT_succ_nil (g : TrackingGraph) (node d : Nat)
    (hp : predecessors g node = []) :
    getPredByT g node (d + 1) = Except.ok none := by
  simp [getPredByT, hp]

/-- Step equation of the walk along a single predecessor. -/
theorem getPredByT_succ_one (g : TrackingGraph) (node d p : Nat)
    (hp : predecessors g node = [p]) :
    getPredByT g node (d + 1) = getPredByT g p d := by
  simp [getPredByT, hp]

/-- Step equation of the walk at a merge. -/
theorem getPredByT_succ_merge (g : TrackingGraph) (node d a b : Nat) (rest : List Nat)
    (hp : predecessors g node = a :: b :: rest) :
    getPredByT g node (d + 1) = Except.error "Cannot operate on graphs with merges" := by
  simp [getPredByT, hp]

/-- Claim C4: the backward predecessor walk fails with the merge error
whenever a node along its path (reached after `k` of the `d` requested
steps) has more than one direct predecessor, and on a concrete matched
dataset whose walk hits a merge the shifted-division corrector raises that
error instead of silently skipping. -/
theorem C4_merge_raises :
    (∀ (g : TrackingGraph) (node k d y : Nat),
      getPredByT g node k = Except.ok (some y) →
      2 ≤ (predecessors g y).length → k < d →
      getPredByT g node d = Except.error "Cannot operate on graphs with merges") ∧
    correctShiftedDivisions mC4 1 sC4 =
      Except.error "Cannot operate on graphs with merges" := by
  constructor
  · intro g node k
    induction k generalizing node with
    | zero =>
      intro d y hk hmerge hkd
      rw [getPredByT_zero] at hk
      injection hk with hk
      injection hk with hk
      subst hk
      obtain ⟨d', rfl⟩ : ∃ d', d = d' + 1 := ⟨d - 1, by omega⟩
      rcases hp : predecessors g node with _ | ⟨a, _ | ⟨b, rest⟩⟩
      · rw [hp] at hmerge; simp at hmerge
      · rw [hp] at hmerge; simp at hmerge
      · exact getPredByT_succ_merge g node d' a b rest hp
    | succ k ih =>
      intro d y hk hmerge hkd
      rcases hp : predecessors g node with _ | ⟨a, _ | ⟨b, rest⟩⟩
      · rw [getPredByT_succ_nil g node k hp] at hk
        simp at hk
      · rw [getPredByT_succ_one g node k a hp] at hk
        obtain ⟨d', rfl⟩ : ∃ d', d = d' + 1 := ⟨d - 1, by omega⟩
        rw [getPredByT_succ_one g node d' a hp]
        exact ih a d' y hk hmerge (by omega)
      · rw [getPredByT_succ_merge g node k a b rest hp] at hk
        simp at hk
  · rfl

/-- Witness for C4 at a concrete input: walking one step back from the
merge node 3 of `gtC4` raises the merge error. -/
theorem C4_merge_raises_witness :
    getPredByT gtC4 3 1 = Except.error "Cannot operate on graphs with merges" :=
  C4_merge_raises.1 gtC4 3 0 1 3 rfl (by decide) (by decide)

/-- Claim C8: for labeled frames and a threshold in `(0, 1]`, the per-frame
matcher returns exactly the candidate label pairs whose intersection size
divided by union size is at least the threshold — non-candidate pairs keep
the matrix entry 0 and can never reach a positive threshold — and with no
candidate pairs the result is the empty match list, not an error. -/
theorem C8_frame_matcher_threshold (gt res : List Nat) (cands : List (Nat × Nat))
    (t : ℚ) (ht0 : 0 < t) (_ht1 : t ≤ 1)
    (hb : ∀ q ∈ cands, q.1 ≤ maxLabel gt ∧ q.2 ≤ maxLabel res) :
    (∀ q : Nat × Nat,
      q ∈ matchNodes gt res cands t ↔ q ∈ cands ∧ t ≤ iouVal gt res q.1 q.2) ∧
    matchNodes gt res [] t = [] := by
  have hprod : ∀ q : Nat × Nat,
      q ∈ (List.range (maxLabel gt + 1)).flatMap
        (fun a => (List.range (maxLabel res + 1)).map (fun b => (a, b))) ↔
      q.1 < maxLabel gt + 1 ∧ q.2 < maxLabel res + 1 := by
    intro q
    cases q with
    | mk a b =>
      simp only [List.mem_flatMap, List.mem_map, List.mem_range, Prod.mk.injEq]
      constructor
      · rintro ⟨a', ha', b', hb', rfl, rfl⟩
        exact ⟨ha', hb'⟩
      · rintro ⟨ha, hbb⟩
        exact ⟨a, ha, b, hbb, rfl, rfl⟩
  constructor
  · intro q
    unfold matchNodes
    rw [List.mem_filter, hprod q, decide_eq_true_eq]
    constructor
    · rintro ⟨_, hle⟩
      by_cases hq : q ∈ cands
      · refine ⟨hq, ?_⟩
        rw [iouEntry, if_pos hq] at hle
        exact hle
      · rw [iouEntry, if_neg hq] at hle
        exact absurd (lt_of_lt_of_le ht0 hle) (lt_irrefl 0)
    · rintro ⟨hq, hle⟩
      obtain ⟨h1, h2⟩ := hb q hq
      refine ⟨⟨by omega, by omega⟩, ?_⟩
      rw [iouEntry, if_pos hq]
      exact hle
  · unfold matchNodes
    rw [List.filter_eq_nil_iff]
    intro q _
    rw [Bool.not_eq_true, decide_eq_false_iff_not]
    intro hle
    rw [iouEntry, if_neg (List.not_mem_nil q)] at hle
    exact absurd (lt_of_lt_of_le ht0 hle) (lt_irrefl 0)

/-- Witness for C8 at a concrete input: two 3-pixel frames, the single
candidate pair `(1, 1)` with IoU 1/2, and threshold 1/2. -/
theorem C8_frame_matcher_threshold_witness :
    (1, 1) ∈ matchNodes [1, 1, 0] [1, 0, 0] [(1, 1)] (1 / 2) ↔
      (1, 1) ∈ [(1, 1)] ∧ (1 / 2 : ℚ) ≤ iouVal [1, 1, 0] [1, 0, 0] 1 1 :=
  (C8_frame_matcher_threshold [1, 1, 0] [1, 0, 0] [(1, 1)] (1 / 2)
    (by norm_num) (by norm_num) (by decide)).1 (1, 1)

/-- Claim C9: whole-dataset IoU matching fails fast — a non-tracking-graph
input on either side, or differing segmentation shapes, makes `match_iou`
raise, and a missing segmentation makes `IOUMatcher._compute_mapping`
raise; in every case an error is returned instead of a mapping. -/
theorem C9_match_iou_fail_fast (ov : List Nat → List Nat → List (Nat × Nat)) (t : ℚ) :
    (∀ q : IouInput, matchIou ov IouInput.notTracking q t =
      Except.error "Input data must be a TrackingData object with a graph and segmentations") ∧
    (∀ q : IouInput, matchIou ov q IouInput.notTracking t =
      Except.error "Input data must be a TrackingData object with a graph and segmentations") ∧
    (∀ (g p : TrackingGraph) (sg sp : Segm), g.segmentation = some sg →
      p.segmentation = some sp → sg.shape ≠ sp.shape →
      matchIou ov (IouInput.tg g) (IouInput.tg p) t =
        Except.error "Segmentation shapes must match between gt and pred") ∧
    (∀ g p : TrackingGraph, g.segmentation = none ∨ p.segmentation = none →
      IOUMatcherComputeMapping ov t g p =
        Except.error "Segmentation data must be provided for both gt and pred data") := by
  refine ⟨?_, ?_, ?_, ?_⟩
  · intro q
    cases q <;> rfl
  · intro q
    cases q <;> rfl
  · intro g p sg sp hg hp hne
    simp [matchIou, hg, hp, hne]
  · intro g p h
    unfold IOUMatcherComputeMapping
    rcases h with h | h <;> simp [h]

/-- Witness for C9 at a concrete input: two graphs whose segmentations have
shapes `[2]` and `[3]`. -/
theorem C9_match_iou_fail_fast_witness :
    matchIou (fun _ _ => []) (IouInput.tg gSegA) (IouInput.tg gSegB) 1 =
      Except.error "Segmentation shapes must match between gt and pred" :=
  (C9_match_iou_fail_fast (fun _ _ => []) 1).2.2.1 gSegA gSegB
    { shape := [2], frames := [[0, 0]] } { shape := [3], frames := [[0, 0, 0]] }
    rfl rfl (by decide)

end Traccuracy
